import Mathlib

/-!
# Verification of the Sales MIS Reporting Dashboard utility

Shallow embedding of `dashboard_utility.py`: the Excel-serial-date repair
routine `excel_serial_to_date`, the date-normalization pipeline applied to the
`Order_Date` column, the KPI aggregates (`total_sales`, `avg_sales`, row
count), the monthly resample (`sales_trend`), the per-category grouping
(`category_sales`), and the top-level control flow that decides which widgets
render (`buildDashboard`).

Modelling decisions:
* A spreadsheet cell (`Value`) is a finite rational number, a missing value
  (pandas `NaN`), Python `None`, a string, or a pandas `Timestamp`.
  Timestamps are represented by their (possibly fractional) day offset from
  the Unix epoch 1970-01-01, mirroring pandas `datetime64[ns]` stored as a
  signed offset from that epoch.
* `pd.to_datetime(..., errors="coerce")` on the mixed column produced by the
  serial fix parses timestamps as themselves, interprets bare numbers as
  nanoseconds since the Unix epoch (pandas default unit, coerced to `NaT`
  outside the int64 range), parses ISO `YYYY-MM-DD` strings, and maps
  everything else (including `None`/`NaN`) to `NaT`, here `Value.nan`.
* pandas reductions skip missing values: a non-numeric amount contributes 0
  to sums and is excluded from the mean's denominator.
* `groupby` sorts group keys ascending and drops rows whose key is missing;
  `sort_values` on the small grouped frame is modelled by a stable insertion
  sort, matching the deterministic order pandas produces there.
* Calendar arithmetic (month truncation, the 1899-12-30 Excel epoch) uses the
  standard civil-from-days / days-from-civil algorithms on proleptic
  Gregorian dates.
-/

/-- A spreadsheet cell value as held in a pandas object column. -/
inductive Value where
  | num (q : ℚ)
  | nan
  | null
  | str (s : String)
  | timestamp (t : ℚ)
deriving DecidableEq

/-- pandas `isna`: `NaN` and `None` are missing. -/
def Value.isNA : Value → Bool
  | .nan => true
  | .null => true
  | _ => false

/-- A row of the uploaded sheet: the three columns the script touches plus the
pass-through remainder. -/
structure Row where
  date : Value
  amount : Value
  category : Value
  rest : List Value
deriving DecidableEq

/-- Day count of a proleptic Gregorian date from the Unix epoch 1970-01-01
(Hinnant's days-from-civil algorithm). -/
def daysFromCivil (y m d : Int) : Int :=
  let y2 : Int := if m ≤ 2 then y - 1 else y
  let era : Int := Int.ediv y2 400
  let yoe : Int := y2 - era * 400
  let mp : Int := if 2 < m then m - 3 else m + 9
  let doy : Int := Int.ediv (153 * mp + 2) 5 + d - 1
  let doe : Int := yoe * 365 + Int.ediv yoe 4 - Int.ediv yoe 100 + doy
  era * 146097 + doe - 719468

/-- Inverse of `daysFromCivil`: (year, month, day) of a Unix-epoch day count
(Hinnant's civil-from-days algorithm). -/
def civilFromDays (z0 : Int) : Int × Int × Int :=
  let z : Int := z0 + 719468
  let era : Int := Int.ediv z 146097
  let doe : Int := z - era * 146097
  let yoe : Int :=
    Int.ediv (doe - Int.ediv doe 1460 + Int.ediv doe 36524 - Int.ediv doe 146096) 365
  let y : Int := yoe + era * 400
  let doy : Int := doe - (365 * yoe + Int.ediv yoe 4 - Int.ediv yoe 100)
  let mp : Int := Int.ediv (5 * doy + 2) 153
  let d : Int := doy - Int.ediv (153 * mp + 2) 5 + 1
  let m : Int := if mp < 10 then mp + 3 else mp - 9
  (if m ≤ 2 then y + 1 else y, m, d)

/-- The calendar month containing a Unix-epoch day count, encoded as a single
month index `year * 12 + (month - 1)`. -/
def monthIdx (z : Int) : Int :=
  (civilFromDays z).1 * 12 + ((civilFromDays z).2.1 - 1)

/-- `excel_serial_to_date` from the script: `pd.isna` values become `None`;
a number strictly between 1000 and 90000 is read as an Excel serial day count
from the 1899-12-30 epoch (which sits 25569 days before the Unix epoch) and
becomes a timestamp; anything else is returned unchanged (comparing a string
or timestamp against 1000 raises `TypeError`, swallowed by the bare
`except`). -/
def excel_serial_to_date : Value → Value
  | .nan => .null
  | .null => .null
  | .num q => if 1000 < q ∧ q < 90000 then .timestamp (-25569 + q) else .num q
  | .str s => .str s
  | .timestamp t => .timestamp t

/-- Number of days in a month of a (proleptic Gregorian) year. -/
def daysInMonth (y m : Int) : Int :=
  if m = 2 then
    if Int.emod y 4 = 0 ∧ (Int.emod y 100 ≠ 0 ∨ Int.emod y 400 = 0) then 29 else 28
  else if m = 4 ∨ m = 6 ∨ m = 9 ∨ m = 11 then 30
  else 31

/-- ISO `YYYY-MM-DD` date-string parsing, the string format pandas
`to_datetime` accepts that matters here; returns the Unix-epoch day count. -/
def parseISODate (s : String) : Option ℚ :=
  match (s.splitOn "-").map String.toNat? with
  | [some y, some m, some d] =>
    if 1 ≤ (m : Int) ∧ (m : Int) ≤ 12 ∧ 1 ≤ (d : Int) ∧ (d : Int) ≤ daysInMonth y m then
      some ((daysFromCivil y m d : Int) : ℚ)
    else none
  | _ => none

/-- Nanoseconds per day: bare numbers handed to `to_datetime` are
nanoseconds since the Unix epoch. -/
def nsPerDay : ℚ := 86400000000000

/-- Largest magnitude (in ns) representable in pandas' int64 timestamps;
beyond it `errors="coerce"` yields `NaT`. -/
def tsBound : ℚ := 9223372036854775807

/-- `pd.to_datetime(v, errors="coerce")` on one cell of the fixed-up column:
`some` day-offset timestamp, or `none` for `NaT`. -/
def to_datetime_coerce : Value → Option ℚ
  | .timestamp t => some t
  | .num q => if -tsBound ≤ q ∧ q ≤ tsBound then some (q / nsPerDay) else none
  | .str s => parseISODate s
  | .nan => none
  | .null => none

/-- First stage of normalization: `df[DATE].apply(excel_serial_to_date)`. -/
def applySerialFix (ds : List Row) : List Row :=
  ds.map fun r => { r with date := excel_serial_to_date r.date }

/-- Second stage: `pd.to_datetime(df[DATE], errors="coerce")`, writing `NaT`
(modelled as `Value.nan`) where parsing fails. -/
def coerceDates (ds : List Row) : List Row :=
  ds.map fun r =>
    { r with date := match to_datetime_coerce r.date with
                     | some t => Value.timestamp t
                     | none => Value.nan }

/-- Third stage: `df.dropna(subset=[DATE])`. -/
def dropnaDates (ds : List Row) : List Row :=
  ds.filter fun r => !r.date.isNA

/-- The whole date-normalization block of the script (lines 50-58). -/
def normalizeDates (ds : List Row) : List Row :=
  dropnaDates (coerceDates (applySerialFix ds))

/-- A row survives normalization iff its fixed-up date coerces. -/
def dateParses (r : Row) : Bool :=
  (to_datetime_coerce (excel_serial_to_date r.date)).isSome

/-- The fields normalization must not touch. -/
def stripDate (r : Row) : Value × Value × List Value :=
  (r.amount, r.category, r.rest)

/-- The amount a row contributes to a pandas sum: missing or non-numeric
amounts are skipped (contribute 0). -/
def amt (r : Row) : ℚ :=
  match r.amount with
  | .num q => q
  | _ => 0

/-- `df[SALES_COLUMN].sum()`. -/
def total_sales (ds : List Row) : ℚ :=
  (ds.map amt).sum

/-- Number of non-missing numeric amounts, the denominator of pandas
`mean`. -/
def numericCount (ds : List Row) : ℕ :=
  ds.countP fun r => match r.amount with | .num _ => true | _ => false

/-- `df[SALES_COLUMN].mean()`: `none` models the `NaN` a mean of an empty
column yields. -/
def avg_sales (ds : List Row) : Option ℚ :=
  if numericCount ds = 0 then none
  else some (total_sales ds / (numericCount ds : ℚ))

/-- Constructor rank, ordering cells of different kinds relative to each
other when group keys are sorted. -/
def Value.rank : Value → ℕ
  | .null => 0
  | .nan => 1
  | .num _ => 2
  | .timestamp _ => 3
  | .str _ => 4

/-- Total order on cell values used for `groupby`'s ascending key sort:
payload order within a kind, constructor rank across kinds. -/
def Value.keyLE : Value → Value → Bool
  | .num a, .num b => a ≤ b
  | .str a, .str b => a ≤ b
  | .timestamp a, .timestamp b => a ≤ b
  | a, b => a.rank ≤ b.rank

/-- `Value.keyLE` as a relation for `List.insertionSort`. -/
def keyRel (a b : Value) : Prop := a.keyLE b = true

instance : DecidableRel keyRel := fun a b => by unfold keyRel; infer_instance

/-- Descending-total order used by
`sort_values(by=SALES_COLUMN, ascending=False)`. -/
def totDescRel (p q : Value × ℚ) : Prop := q.2 ≤ p.2

instance : DecidableRel totDescRel := fun p q => by unfold totDescRel; infer_instance

/-- Keep the first occurrence of each element, preserving order. -/
def firstOccurAux {α : Type} [DecidableEq α] (seen : List α) : List α → List α
  | [] => []
  | a :: l => if a ∈ seen then firstOccurAux seen l
              else a :: firstOccurAux (a :: seen) l

/-- Distinct elements of a list in order of first appearance. -/
def firstOccur {α : Type} [DecidableEq α] (l : List α) : List α :=
  firstOccurAux [] l

/-- The group key of a row, `none` when `groupby` would drop it (missing
category). -/
def catKey (r : Row) : Option Value :=
  if r.category.isNA then none else some r.category

/-- `groupby(CATEGORY_COLUMN)` group keys: distinct non-missing category
values, sorted ascending (pandas `sort=True` default). -/
def groupKeys (ds : List Row) : List Value :=
  List.insertionSort keyRel (firstOccur (ds.filterMap catKey))

/-- Summed amount of the rows carrying one category value. -/
def catSum (ds : List Row) (c : Value) : ℚ :=
  ((ds.filter fun r => r.category = c).map amt).sum

/-- `df.groupby(CATEGORY)[SALES].sum().reset_index().sort_values(by=SALES,
ascending=False)`: per-category totals, sorted by total descending (stable
over the key-ascending grouped frame). -/
def category_sales (ds : List Row) : List (Value × ℚ) :=
  List.insertionSort totDescRel ((groupKeys ds).map fun c => (c, catSum ds c))

/-- The spec's wording of `categoryTotals`: groups in order of first
appearance of each category, then the same stable descending sort — so that
ties keep the original category ordering. -/
def categoryTotals_spec (ds : List Row) : List (Value × ℚ) :=
  List.insertionSort totDescRel
    ((firstOccur (ds.filterMap catKey)).map fun c => (c, catSum ds c))

/-- Month index of a row's (normalized) date, `none` when the date is not a
timestamp; `resample` buckets a timestamp by the month containing its day. -/
def rowMonth (r : Row) : Option Int :=
  match r.date with
  | .timestamp t => some (monthIdx ⌊t⌋)
  | _ => none

/-- Summed amount of the rows falling in one calendar month. -/
def monthSum (ds : List Row) (m : Int) : ℚ :=
  ((ds.filter fun r => rowMonth r = some m).map amt).sum

/-- The contiguous month range `resample("M")` emits, with each month's
summed amount (0 for months with no rows). -/
def trendFrom (ds : List Row) (lo hi : Int) : List (Int × ℚ) :=
  (List.range (hi + 1 - lo).toNat).map
    fun i : ℕ => (lo + (i : Int), monthSum ds (lo + (i : Int)))

/-- `df.set_index(DATE)[SALES].resample("M").sum()`: one bucket per calendar
month from the earliest to the latest month present, ascending, gap months
filled with 0; empty input gives an empty series. -/
def sales_trend (ds : List Row) : List (Int × ℚ) :=
  match ds.filterMap rowMonth with
  | [] => []
  | m :: rest => trendFrom ds (rest.foldl min m) (rest.foldl max m)

/-- Ascending order on month indexes. -/
def intLeRel (a b : Int) : Prop := a ≤ b

instance : DecidableRel intLeRel := fun a b => by unfold intLeRel; infer_instance

/-- The spec's wording of `monthlyTrend`: only the months that actually
contain rows, sorted ascending, each with its summed amount. -/
def monthlyTrend_spec (ds : List Row) : List (Int × ℚ) :=
  (List.insertionSort intLeRel (firstOccur (ds.filterMap rowMonth))).map
    fun m => (m, monthSum ds m)

/-- The in-memory DataFrame right after `pd.read_excel`: which of the three
configured columns exist, and the rows. -/
structure DataFrame where
  hasDateCol : Bool
  hasSalesCol : Bool
  hasCategoryCol : Bool
  rows : List Row
deriving DecidableEq

/-- Everything the script renders after a successful file read: `none`
fields are widgets the run skipped. -/
structure Output where
  preview : List Row
  totalSalesMetric : Option ℚ
  avgSaleMetric : Option (Option ℚ)
  txCountMetric : Option ℕ
  trendChart : Option (List (Int × ℚ))
  barChart : Option (List (Value × ℚ))
  pieChart : Option (List (Value × ℚ))
  errorMsg : Option String
deriving DecidableEq

/-- The script's post-read control flow (lines 20-117): preview first (from
the raw rows, `df.head()` default 5), date normalization only when the date
column exists, KPIs and charts only when the sales column exists — otherwise
the "Required column ... not found" error — and the two category charts only
when the category column also exists. -/
def buildDashboard (df : DataFrame) : Output :=
  let preview := df.rows.take 5
  let rows := if df.hasDateCol then normalizeDates df.rows else df.rows
  if df.hasSalesCol then
    { preview := preview
      totalSalesMetric := some (total_sales rows)
      avgSaleMetric := some (avg_sales rows)
      txCountMetric := some rows.length
      trendChart := if df.hasDateCol then some (sales_trend rows) else none
      barChart := if df.hasCategoryCol then some (category_sales rows) else none
      pieChart := if df.hasCategoryCol then some (category_sales rows) else none
      errorMsg := none }
  else
    { preview := preview
      totalSalesMetric := none
      avgSaleMetric := none
      txCountMetric := none
      trendChart := none
      barChart := none
      pieChart := none
      errorMsg := some "Required column Sales_Amount not found. Please check column names." }

/-! ## Basic facts about the normalization pipeline -/

/-- The three normalization stages fused into a single map-then-filter. -/
lemma normalizeDates_eq_filter_map (ds : List Row) :
    normalizeDates ds =
      (ds.map fun r =>
        { r with date := match to_datetime_coerce (excel_serial_to_date r.date) with
                         | some t => Value.timestamp t
                         | none => Value.nan }).filter
        (fun r => !r.date.isNA) := by
  simp only [normalizeDates, dropnaDates, coerceDates, applySerialFix, List.map_map]
  rfl

lemma length_normalizeDates (ds : List Row) :
    (normalizeDates ds).length = ds.countP dateParses := by
  rw [normalizeDates_eq_filter_map, ← List.countP_eq_length_filter, List.countP_map]
  apply List.countP_congr
  intro r _
  cases h : to_datetime_coerce (excel_serial_to_date r.date) <;>
    simp [dateParses, Function.comp, h, Value.isNA]

/-- C1: for every numeric value `v` with `1000 < v < 90000`,
`excel_serial_to_date v` is the calendar date 1899-12-30 plus `v` days. -/
theorem C1_excel_serial_in_range (q : ℚ) (h1 : 1000 < q) (h2 : q < 90000) :
    excel_serial_to_date (Value.num q) =
      Value.timestamp ((daysFromCivil 1899 12 30 : ℚ) + q) := by
  have hepoch : daysFromCivil 1899 12 30 = -25569 := by decide
  rw [hepoch]
  simp [excel_serial_to_date, h1, h2]

/-- Witness for C1 at the spec's own example serial 41760 (2014-05-01). -/
theorem C1_witness :
    (1000 : ℚ) < 41760 ∧ (41760 : ℚ) < 90000 ∧
      excel_serial_to_date (Value.num 41760) =
        Value.timestamp ((daysFromCivil 1899 12 30 : ℚ) + 41760) :=
  ⟨by norm_num, by norm_num, C1_excel_serial_in_range 41760 (by norm_num) (by norm_num)⟩

/-- C6: a numeric value outside the open interval (1000, 90000) is returned
unchanged. -/
theorem C6_excel_serial_out_of_range (q : ℚ) (h : q ≤ 1000 ∨ 90000 ≤ q) :
    excel_serial_to_date (Value.num q) = Value.num q := by
  have : ¬(1000 < q ∧ q < 90000) := by
    rcases h with h | h
    · exact fun hc => absurd hc.1 (not_lt.mpr h)
    · exact fun hc => absurd hc.2 (not_lt.mpr h)
  simp [excel_serial_to_date, this]

/-- Witness for C6 at `v = 100000`. -/
theorem C6_witness :
    ((100000 : ℚ) ≤ 1000 ∨ (90000 : ℚ) ≤ 100000) ∧
      excel_serial_to_date (Value.num 100000) = Value.num 100000 :=
  ⟨Or.inr (by norm_num), C6_excel_serial_out_of_range 100000 (Or.inr (by norm_num))⟩

/-- C7: a missing value maps to `None` — a null result that is neither the
input `NaN`, a date, nor a number. -/
theorem C7_excel_serial_nan :
    excel_serial_to_date Value.nan = Value.null ∧
      Value.null ≠ Value.nan ∧
      (∀ t : ℚ, Value.null ≠ Value.timestamp t) ∧
      (∀ q : ℚ, Value.null ≠ Value.num q) := by
  refine ⟨rfl, by simp, fun t => by simp, fun q => by simp⟩

/-- C2: normalization (a total function — the bare `except` in
`excel_serial_to_date` and `errors="coerce"` mean no exception escapes)
keeps exactly the rows whose date value parses, and every surviving row's
date field is a genuine timestamp. -/
theorem C2_normalizeDates_safe (ds : List Row) (r : Row) (hr : r ∈ normalizeDates ds) :
    (∃ t : ℚ, r.date = Value.timestamp t) ∧
      (normalizeDates ds).length = ds.countP dateParses := by
  refine ⟨?_, length_normalizeDates ds⟩
  rw [normalizeDates_eq_filter_map] at hr
  have hmem := List.mem_of_mem_filter hr
  have hkeep := List.of_mem_filter hr
  rcases List.mem_map.mp hmem with ⟨a, _, rfl⟩
  cases h : to_datetime_coerce (excel_serial_to_date a.date) with
  | none => simp [h, Value.isNA] at hkeep
  | some t => exact ⟨t, by simp [h]⟩

/-- C10: stripped of the date field, the normalized dataset is a sublist of
the input — retained rows keep all their other fields and their relative
order. -/
theorem C10_normalizeDates_frame (ds : List Row) :
    ((normalizeDates ds).map stripDate).Sublist (ds.map stripDate) := by
  rw [normalizeDates_eq_filter_map]
  have h1 : (((ds.map fun r =>
      { r with date := match to_datetime_coerce (excel_serial_to_date r.date) with
                       | some t => Value.timestamp t
                       | none => Value.nan }).filter
      (fun r => !r.date.isNA)).map stripDate).Sublist
      ((ds.map fun r =>
        { r with date := match to_datetime_coerce (excel_serial_to_date r.date) with
                         | some t => Value.timestamp t
                         | none => Value.nan }).map stripDate) :=
    (List.filter_sublist _).map stripDate
  rwa [List.map_map, show (stripDate ∘ fun r : Row =>
      { r with date := match to_datetime_coerce (excel_serial_to_date r.date) with
                       | some t => Value.timestamp t
                       | none => Value.nan }) = stripDate from funext fun r => rfl] at h1

/-! ## Control-flow claims -/

/-- C8: without the configured amount column, no KPI metric is computed, the
"column not found" error is reported, every chart is skipped, and the raw
preview still renders — the run is not aborted. -/
theorem C8_missing_sales_column (df : DataFrame) (h : df.hasSalesCol = false) :
    buildDashboard df =
      { preview := df.rows.take 5
        totalSalesMetric := none
        avgSaleMetric := none
        txCountMetric := none
        trendChart := none
        barChart := none
        pieChart := none
        errorMsg := some "Required column Sales_Amount not found. Please check column names." } := by
  simp [buildDashboard, h]

/-- Witness for C8 on a one-row frame lacking the amount column. -/
theorem C8_witness :
    (DataFrame.mk true false true [⟨Value.num 41760, Value.nan, Value.str "A", []⟩]).hasSalesCol
        = false ∧
      buildDashboard (DataFrame.mk true false true [⟨Value.num 41760, Value.nan, Value.str "A", []⟩]) =
        { preview := [⟨Value.num 41760, Value.nan, Value.str "A", []⟩]
          totalSalesMetric := none
          avgSaleMetric := none
          txCountMetric := none
          trendChart := none
          barChart := none
          pieChart := none
          errorMsg := some "Required column Sales_Amount not found. Please check column names." } :=
  ⟨rfl, C8_missing_sales_column _ rfl⟩

/-- C9: on an empty dataset (all configured columns present, zero rows) every
aggregate is zero or empty, every chart's data is empty, and no error is
reported. -/
theorem C9_empty_dataset (df : DataFrame) (hr : df.rows = [])
    (hd : df.hasDateCol = true) (hs : df.hasSalesCol = true)
    (hc : df.hasCategoryCol = true) :
    buildDashboard df =
      { preview := []
        totalSalesMetric := some 0
        avgSaleMetric := some none
        txCountMetric := some 0
        trendChart := some []
        barChart := some []
        pieChart := some []
        errorMsg := none } := by
  simp [buildDashboard, hr, hd, hs, hc, normalizeDates, dropnaDates, coerceDates,
    applySerialFix, total_sales, avg_sales, numericCount, sales_trend,
    category_sales, groupKeys, firstOccur, firstOccurAux]

/-- Witness for C9 on the empty frame. -/
theorem C9_witness :
    (DataFrame.mk true true true []).rows = [] ∧
      buildDashboard (DataFrame.mk true true true []) =
        { preview := []
          totalSalesMetric := some 0
          avgSaleMetric := some none
          txCountMetric := some 0
          trendChart := some []
          barChart := some []
          pieChart := some []
          errorMsg := none } :=
  ⟨rfl, C9_empty_dataset _ rfl rfl rfl rfl⟩

/-! ## Grouping lemmas -/

lemma firstOccurAux_nodup {α : Type} [DecidableEq α] :
    ∀ (l seen : List α), (firstOccurAux seen l).Nodup ∧
      ∀ a ∈ firstOccurAux seen l, a ∉ seen := by
  intro l
  induction l with
  | nil => intro seen; simp [firstOccurAux]
  | cons a l ih =>
    intro seen
    by_cases h : a ∈ seen
    · simpa [firstOccurAux, h] using ih seen
    · have hrec := ih (a :: seen)
      refine ⟨?_, ?_⟩
      · rw [firstOccurAux, if_neg h, List.nodup_cons]
        exact ⟨fun hmem => (hrec.2 a hmem) (List.mem_cons_self a seen), hrec.1⟩
      · intro b hb
        rw [firstOccurAux, if_neg h, List.mem_cons] at hb
        rcases hb with rfl | hb
        · exact h
        · exact fun hbseen => (hrec.2 b hb) (List.mem_cons_of_mem a hbseen)

lemma mem_firstOccurAux {α : Type} [DecidableEq α] :
    ∀ (l seen : List α) (a : α), a ∈ l → a ∈ seen ∨ a ∈ firstOccurAux seen l := by
  intro l
  induction l with
  | nil => intro seen a ha; cases ha
  | cons b l ih =>
    intro seen a ha
    by_cases h : b ∈ seen
    · rw [firstOccurAux, if_pos h]
      rcases List.mem_cons.mp ha with rfl | ha
      · exact Or.inl h
      · exact ih seen a ha
    · rw [firstOccurAux, if_neg h]
      rcases List.mem_cons.mp ha with rfl | ha
      · exact Or.inr (List.mem_cons_self a _)
      · rcases ih (b :: seen) a ha with hm | hm
        · rcases List.mem_cons.mp hm with rfl | hm
          · exact Or.inr (List.mem_cons_self a _)
          · exact Or.inl hm
        · exact Or.inr (List.mem_cons_of_mem b hm)

lemma firstOccur_nodup {α : Type} [DecidableEq α] (l : List α) :
    (firstOccur l).Nodup :=
  (firstOccurAux_nodup l []).1

lemma mem_firstOccur {α : Type} [DecidableEq α] {l : List α} {a : α} (ha : a ∈ l) :
    a ∈ firstOccur l := by
  rcases mem_firstOccurAux l [] a ha with hm | hm
  · cases hm
  · exact hm

lemma groupKeys_nodup (ds : List Row) : (groupKeys ds).Nodup :=
  ((List.perm_insertionSort keyRel _).nodup_iff).mpr
    (firstOccur_nodup (ds.filterMap catKey))

lemma mem_groupKeys {ds : List Row} {r : Row} (hr : r ∈ ds)
    (hna : r.category.isNA = false) : r.category ∈ groupKeys ds := by
  have h1 : r.category ∈ ds.filterMap catKey :=
    List.mem_filterMap.mpr ⟨r, hr, by simp [catKey, hna]⟩
  exact ((List.perm_insertionSort keyRel _).mem_iff).mpr (mem_firstOccur h1)

lemma catSum_cons (r : Row) (ds : List Row) (c : Value) :
    catSum (r :: ds) c = (if r.category = c then amt r else 0) + catSum ds c := by
  by_cases h : r.category = c <;> simp [catSum, List.filter_cons, h]

lemma sum_map_ite_eq_of_mem {α : Type} [DecidableEq α] {keys : List α} {a : α}
    (x : ℚ) (hnd : keys.Nodup) (ha : a ∈ keys) :
    (keys.map fun c => if a = c then x else 0).sum = x := by
  induction keys with
  | nil => cases ha
  | cons k ks ih =>
    rcases List.mem_cons.mp ha with rfl | hmem
    · have hnotin : a ∉ ks := (List.nodup_cons.mp hnd).1
      have hz : (ks.map fun c => if a = c then x else 0).sum = 0 := by
        apply List.sum_eq_zero
        intro y hy
        rcases List.mem_map.mp hy with ⟨c, hc, rfl⟩
        rw [if_neg]
        rintro rfl
        exact hnotin hc
      simp [hz]
    · have hk : a ≠ k := by
        rintro rfl
        exact (List.nodup_cons.mp hnd).1 hmem
      simp only [List.map_cons, List.sum_cons, if_neg hk]
      rw [ih (List.nodup_cons.mp hnd).2 hmem]
      ring

/-- Partition: summing per-key sums over any duplicate-free key list covering
every row's category recovers the global sum. -/
lemma sum_catSum_eq (keys : List Value) (hnd : keys.Nodup) :
    ∀ ds : List Row, (∀ r ∈ ds, r.category ∈ keys) →
      (keys.map fun c => catSum ds c).sum = total_sales ds := by
  intro ds
  induction ds with
  | nil =>
    intro _
    have : ∀ c ∈ keys, catSum ([] : List Row) c = 0 := by
      intro c _; simp [catSum]
    calc (keys.map fun c => catSum ([] : List Row) c).sum
        = 0 := List.sum_eq_zero (by
          intro y hy
          rcases List.mem_map.mp hy with ⟨c, hc, rfl⟩
          exact this c hc)
      _ = total_sales [] := by simp [total_sales]
  | cons r ds ih =>
    intro h
    have hmap : (keys.map fun c => catSum (r :: ds) c) =
        keys.map fun c => (if r.category = c then amt r else 0) + catSum ds c := by
      simp [catSum_cons]
    rw [hmap, List.sum_map_add,
      sum_map_ite_eq_of_mem (amt r) hnd (h r (List.mem_cons_self r ds)),
      ih fun x hx => h x (List.mem_cons_of_mem r hx)]
    simp [total_sales]

/-- C4 (amended): when no row's category cell is missing, the per-category
totals sum to the global amount sum. `groupby` silently drops rows whose key
is `NaN`, so the unconditional claim fails (see the counterexample). -/
theorem C4_category_totals_sum (ds : List Row)
    (h : ∀ r ∈ ds, r.category.isNA = false) :
    ((category_sales ds).map Prod.snd).sum = total_sales ds := by
  have hperm : (category_sales ds).Perm
      ((groupKeys ds).map fun c => (c, catSum ds c)) :=
    List.perm_insertionSort totDescRel _
  rw [(hperm.map Prod.snd).sum_eq, List.map_map]
  have : (Prod.snd ∘ fun c => (c, catSum ds c)) = fun c => catSum ds c := rfl
  rw [this]
  exact sum_catSum_eq (groupKeys ds) (groupKeys_nodup ds) ds
    fun r hr => mem_groupKeys hr (h r hr)

/-- Witness for C4's amended theorem on a two-category dataset. -/
theorem C4_witness :
    ((category_sales
        [⟨Value.nan, Value.num 3, Value.str "A", []⟩,
         ⟨Value.nan, Value.num 4, Value.str "B", []⟩]).map Prod.snd).sum =
      total_sales
        [⟨Value.nan, Value.num 3, Value.str "A", []⟩,
         ⟨Value.nan, Value.num 4, Value.str "B", []⟩] :=
  C4_category_totals_sum _ (by decide)

/-- Counterexample to C4 as stated: one row with amount 5 and a missing
category gives global total 5 but an empty grouped frame, so the category
totals sum to 0. -/
theorem C4_counterexample :
    ((category_sales [⟨Value.nan, Value.num 5, Value.nan, []⟩]).map Prod.snd).sum ≠
      total_sales [⟨Value.nan, Value.num 5, Value.nan, []⟩] := by
  have h1 : category_sales [⟨Value.nan, Value.num 5, Value.nan, []⟩] = [] := by
    simp [category_sales, groupKeys, firstOccur, firstOccurAux, catKey,
      Value.isNA, List.insertionSort]
  rw [h1]
  simp [total_sales, amt]

/-! ## Order properties of the key relation and sort stability -/

lemma keyLE_total (a b : Value) : a.keyLE b = true ∨ b.keyLE a = true := by
  cases a <;> cases b <;>
    simp [Value.keyLE, Value.rank] <;>
    exact le_total _ _

lemma keyLE_trans {a b c : Value} (h1 : a.keyLE b = true) (h2 : b.keyLE c = true) :
    a.keyLE c = true := by
  cases a <;> cases b <;> cases c <;>
    simp_all [Value.keyLE, Value.rank] <;>
    exact le_trans h1 h2

instance : IsTotal Value keyRel := ⟨keyLE_total⟩

instance : IsTrans Value keyRel := ⟨fun _ _ _ h1 h2 => keyLE_trans h1 h2⟩

instance : IsTotal (Value × ℚ) totDescRel := ⟨fun p q => le_total q.2 p.2⟩

instance : IsTrans (Value × ℚ) totDescRel := ⟨fun _ _ _ h1 h2 => le_trans h2 h1⟩

/-- Strict key precedence between grouped pairs: the first pair's category
strictly precedes the second's. -/
def keyStrict (p q : Value × ℚ) : Prop := keyRel p.1 q.1 ∧ p.1 ≠ q.1

/-- Order the descending sort is claimed to produce: totals descending, and
between equal totals the category key ascending. -/
def tieBreak (p q : Value × ℚ) : Prop :=
  q.2 ≤ p.2 ∧ (p.2 ≤ q.2 → keyRel p.1 q.1)

lemma orderedInsert_stable (a : Value × ℚ) :
    ∀ l : List (Value × ℚ), l.Pairwise tieBreak → (∀ b ∈ l, keyStrict a b) →
      (List.orderedInsert totDescRel a l).Pairwise tieBreak := by
  intro l
  induction l with
  | nil => intro _ _; simp [List.orderedInsert, tieBreak]
  | cons b l ih =>
    intro hpw hks
    rw [List.orderedInsert]
    by_cases hab : totDescRel a b
    · rw [if_pos hab]
      refine List.Pairwise.cons ?_ hpw
      intro c hc
      rcases List.mem_cons.mp hc with rfl | hc
      · exact ⟨hab, fun _ => (hks c (List.mem_cons_self c l)).1⟩
      · have hbc := (List.pairwise_cons.mp hpw).1 c hc
        exact ⟨le_trans hbc.1 hab, fun _ =>
          (hks c (List.mem_cons_of_mem b hc)).1⟩
    · rw [if_neg hab]
      have hlt : a.2 < b.2 := lt_of_not_le hab
      refine List.Pairwise.cons ?_
        (ih (List.pairwise_cons.mp hpw).2
          fun c hc => hks c (List.mem_cons_of_mem b hc))
      intro c hc
      rcases (List.mem_orderedInsert totDescRel).mp hc with rfl | hc
      · exact ⟨le_of_lt hlt, fun hba => absurd (lt_of_lt_of_le hlt hba) (lt_irrefl _)⟩
      · exact (List.pairwise_cons.mp hpw).1 c hc

lemma insertionSort_stable :
    ∀ l : List (Value × ℚ), l.Pairwise keyStrict →
      (List.insertionSort totDescRel l).Pairwise tieBreak := by
  intro l
  induction l with
  | nil => intro _; simp [List.insertionSort]
  | cons a l ih =>
    intro hpw
    rw [List.insertionSort]
    refine orderedInsert_stable a _ (ih (List.pairwise_cons.mp hpw).2) ?_
    intro b hb
    exact (List.pairwise_cons.mp hpw).1 b
      ((List.perm_insertionSort totDescRel l).mem_iff.mp hb)

/-- C3 (amended): `category_sales` is a permutation of the per-category
(key, total) pairs and is ordered by total descending with ties in ascending
category-key order — pandas `groupby` sorts keys ascending and forgets the
original appearance order, so ties are NOT broken by the dataset's original
category ordering (see the counterexample). -/
theorem C3_category_sales_order (ds : List Row) :
    (category_sales ds).Pairwise tieBreak ∧
      (category_sales ds).Perm ((groupKeys ds).map fun c => (c, catSum ds c)) := by
  refine ⟨?_, List.perm_insertionSort totDescRel _⟩
  apply insertionSort_stable
  have hsorted : (groupKeys ds).Pairwise keyRel :=
    List.sorted_insertionSort keyRel (firstOccur (ds.filterMap catKey))
  have hnodup : (groupKeys ds).Pairwise (· ≠ ·) := groupKeys_nodup ds
  have hcomb := hsorted.and hnodup
  exact hcomb.map (fun c => (c, catSum ds c)) fun a b hab => hab

/-- Counterexample to C3 as stated: two categories (the value 2 appearing
first, then 1) with tied totals. The code groups with keys sorted ascending
and the stable descending sort keeps that key order, while the spec's
original-appearance tie-break predicts the reverse. -/
theorem C3_counterexample :
    category_sales
        [⟨Value.nan, Value.num 1, Value.num 2, []⟩,
         ⟨Value.nan, Value.num 1, Value.num 1, []⟩] ≠
      categoryTotals_spec
        [⟨Value.nan, Value.num 1, Value.num 2, []⟩,
         ⟨Value.nan, Value.num 1, Value.num 1, []⟩] := by
  have hcode : category_sales
      [⟨Value.nan, Value.num 1, Value.num 2, []⟩,
       ⟨Value.nan, Value.num 1, Value.num 1, []⟩] =
      [(Value.num 1, 1), (Value.num 2, 1)] := by
    norm_num [category_sales, groupKeys, firstOccur, firstOccurAux, catKey,
      Value.isNA, List.insertionSort, List.orderedInsert, keyRel, Value.keyLE,
      totDescRel, catSum, amt, List.filter_cons]
  have hspec : categoryTotals_spec
      [⟨Value.nan, Value.num 1, Value.num 2, []⟩,
       ⟨Value.nan, Value.num 1, Value.num 1, []⟩] =
      [(Value.num 2, 1), (Value.num 1, 1)] := by
    norm_num [categoryTotals_spec, firstOccur, firstOccurAux, catKey,
      Value.isNA, List.insertionSort, List.orderedInsert, keyRel, Value.keyLE,
      totDescRel, catSum, amt, List.filter_cons]
  rw [hcode, hspec]
  simp only [ne_eq, List.cons.injEq, Prod.mk.injEq, Value.num.injEq]
  norm_num

/-- Witness for C3's amended theorem on a concrete two-category dataset. -/
theorem C3_witness :
    (category_sales
        [⟨Value.nan, Value.num 7, Value.str "B", []⟩,
         ⟨Value.nan, Value.num 9, Value.str "A", []⟩]).Pairwise tieBreak ∧
      (category_sales
          [⟨Value.nan, Value.num 7, Value.str "B", []⟩,
           ⟨Value.nan, Value.num 9, Value.str "A", []⟩]).Perm
        ((groupKeys
            [⟨Value.nan, Value.num 7, Value.str "B", []⟩,
             ⟨Value.nan, Value.num 9, Value.str "A", []⟩]).map
          fun c => (c, catSum
            [⟨Value.nan, Value.num 7, Value.str "B", []⟩,
             ⟨Value.nan, Value.num 9, Value.str "A", []⟩] c)) :=
  C3_category_sales_order _

/-! ## The monthly trend -/

lemma foldl_min_le (l : List Int) :
    ∀ a : Int, l.foldl min a ≤ a ∧ ∀ b ∈ l, l.foldl min a ≤ b := by
  induction l with
  | nil => simp
  | cons x l ih =>
    intro a
    refine ⟨le_trans (ih (min a x)).1 (min_le_left a x), ?_⟩
    intro b hb
    rcases List.mem_cons.mp hb with rfl | hb
    · exact le_trans (ih (min a b)).1 (min_le_right a b)
    · exact (ih (min a x)).2 b hb

lemma le_foldl_max (l : List Int) :
    ∀ a : Int, a ≤ l.foldl max a ∧ ∀ b ∈ l, b ≤ l.foldl max a := by
  induction l with
  | nil => simp
  | cons x l ih =>
    intro a
    refine ⟨le_trans (le_max_left a x) (ih (max a x)).1, ?_⟩
    intro b hb
    rcases List.mem_cons.mp hb with rfl | hb
    · exact le_trans (le_max_right a b) (ih (max a b)).1
    · exact (ih (max a x)).2 b hb

lemma mem_trendFrom_months {ds : List Row} {lo hi m : Int}
    (hlo : lo ≤ m) (hhi : m ≤ hi) : m ∈ (trendFrom ds lo hi).map Prod.fst := by
  rw [trendFrom, List.map_map]
  refine List.mem_map.mpr ⟨(m - lo).toNat, ?_, ?_⟩
  · refine List.mem_range.mpr ?_
    rw [Int.toNat_lt_toNat (by omega)]
    omega
  · show lo + ((m - lo).toNat : Int) = m
    rw [Int.toNat_of_nonneg (by omega)]
    omega

lemma foldl_min_mem (l : List Int) : ∀ a : Int, l.foldl min a ∈ a :: l := by
  induction l with
  | nil => simp
  | cons x l ih =>
    intro a
    have h : (x :: l).foldl min a = l.foldl min (min a x) := rfl
    rw [h]
    rcases List.mem_cons.mp (ih (min a x)) with hEq | hmem
    · rcases min_choice a x with hc | hc
      · rw [hEq, hc]; exact List.mem_cons_self a _
      · rw [hEq, hc]; exact List.mem_cons_of_mem a (List.mem_cons_self x l)
    · exact List.mem_cons_of_mem a (List.mem_cons_of_mem x hmem)

lemma foldl_max_mem (l : List Int) : ∀ a : Int, l.foldl max a ∈ a :: l := by
  induction l with
  | nil => simp
  | cons x l ih =>
    intro a
    have h : (x :: l).foldl max a = l.foldl max (max a x) := rfl
    rw [h]
    rcases List.mem_cons.mp (ih (max a x)) with hEq | hmem
    · rcases max_choice a x with hc | hc
      · rw [hEq, hc]; exact List.mem_cons_self a _
      · rw [hEq, hc]; exact List.mem_cons_of_mem a (List.mem_cons_self x l)
    · exact List.mem_cons_of_mem a (List.mem_cons_of_mem x hmem)

/-- C5 (amended): the resampled trend is sorted by month strictly ascending;
every emitted (month, total) pair carries exactly the sum of the amounts of
the rows whose date falls in that month (hence 0 for a month with no rows);
and the emitted months are exactly the contiguous range from the earliest to
the latest month containing a row: a month is emitted iff some row's month is
≤ it and some row's month is ≥ it. So `resample("M")` fills gap months with
total 0 rather than returning only the non-empty groups — the grouping
`monthlyTrend_spec` violates the iff on the counterexample's June. -/
theorem C5_sales_trend_months (ds : List Row) :
    ((sales_trend ds).map Prod.fst).Pairwise (· < ·) ∧
      (∀ p ∈ sales_trend ds, p.2 = monthSum ds p.1) ∧
      (∀ m : Int, m ∈ (sales_trend ds).map Prod.fst ↔
        ((∃ m1 ∈ ds.filterMap rowMonth, m1 ≤ m) ∧
          ∃ m2 ∈ ds.filterMap rowMonth, m ≤ m2)) := by
  cases hfm : ds.filterMap rowMonth with
  | nil =>
    have hst : sales_trend ds = [] := by
      simp only [sales_trend, hfm]
    refine ⟨by simp [hst], by simp [hst], ?_⟩
    intro m
    simp [hst]
  | cons m0 rest =>
    have hst : sales_trend ds = trendFrom ds (rest.foldl min m0) (rest.foldl max m0) := by
      simp only [sales_trend, hfm]
    refine ⟨?_, ?_, ?_⟩
    · rw [hst, trendFrom, List.map_map]
      have : (Prod.fst ∘ fun i : ℕ =>
          ((rest.foldl min m0) + (i : Int), monthSum ds ((rest.foldl min m0) + (i : Int)))) =
          fun i : ℕ => (rest.foldl min m0) + (i : Int) := rfl
      rw [this]
      exact (List.pairwise_lt_range _).map _ fun i j hij => by omega
    · intro p hp
      rw [hst, trendFrom] at hp
      rcases List.mem_map.mp hp with ⟨i, _, rfl⟩
      rfl
    · intro m
      rw [hst]
      constructor
      · intro hmem
        rcases List.mem_map.mp hmem with ⟨p, hp, rfl⟩
        rw [trendFrom] at hp
        rcases List.mem_map.mp hp with ⟨i, hi_mem, rfl⟩
        have hrange := List.mem_range.mp hi_mem
        refine ⟨⟨rest.foldl min m0, foldl_min_mem rest m0, ?_⟩,
                ⟨rest.foldl max m0, foldl_max_mem rest m0, ?_⟩⟩
        · show rest.foldl min m0 ≤ rest.foldl min m0 + (i : Int)
          omega
        · show rest.foldl min m0 + (i : Int) ≤ rest.foldl max m0
          omega
      · rintro ⟨⟨m1, hm1, hm1le⟩, ⟨m2, hm2, hm2le⟩⟩
        have hlo : rest.foldl min m0 ≤ m1 := by
          rcases List.mem_cons.mp hm1 with rfl | h
          · exact (foldl_min_le rest m1).1
          · exact (foldl_min_le rest m0).2 m1 h
        have hhi : m2 ≤ rest.foldl max m0 := by
          rcases List.mem_cons.mp hm2 with rfl | h
          · exact (le_foldl_max rest m2).1
          · exact (le_foldl_max rest m0).2 m2 h
        exact mem_trendFrom_months (le_trans hlo hm1le) (le_trans hm2le hhi)

/-- Witness for C5's amended theorem on the two-month gap dataset. -/
theorem C5_witness :
    ((sales_trend
        [⟨Value.timestamp 16191, Value.num 100, Value.nan, []⟩,
         ⟨Value.timestamp 16252, Value.num 50, Value.nan, []⟩]).map Prod.fst).Pairwise
        (· < ·) ∧
      (∀ p ∈ sales_trend
          [⟨Value.timestamp 16191, Value.num 100, Value.nan, []⟩,
           ⟨Value.timestamp 16252, Value.num 50, Value.nan, []⟩],
        p.2 = monthSum
          [⟨Value.timestamp 16191, Value.num 100, Value.nan, []⟩,
           ⟨Value.timestamp 16252, Value.num 50, Value.nan, []⟩] p.1) ∧
      (∀ m : Int,
        m ∈ (sales_trend
            [⟨Value.timestamp 16191, Value.num 100, Value.nan, []⟩,
             ⟨Value.timestamp 16252, Value.num 50, Value.nan, []⟩]).map Prod.fst ↔
          ((∃ m1 ∈ List.filterMap rowMonth
              [⟨Value.timestamp 16191, Value.num 100, Value.nan, []⟩,
               ⟨Value.timestamp 16252, Value.num 50, Value.nan, []⟩], m1 ≤ m) ∧
            ∃ m2 ∈ List.filterMap rowMonth
              [⟨Value.timestamp 16191, Value.num 100, Value.nan, []⟩,
               ⟨Value.timestamp 16252, Value.num 50, Value.nan, []⟩], m ≤ m2)) :=
  C5_sales_trend_months _

/-- Counterexample to C5 as stated: rows on 2014-05-01 and 2014-07-01 only.
The spec's grouping yields two (month, total) pairs; `resample("M")` emits
three — June appears with total 0 although no row falls in it. -/
theorem C5_counterexample :
    sales_trend
        [⟨Value.timestamp 16191, Value.num 100, Value.nan, []⟩,
         ⟨Value.timestamp 16252, Value.num 50, Value.nan, []⟩] ≠
      monthlyTrend_spec
        [⟨Value.timestamp 16191, Value.num 100, Value.nan, []⟩,
         ⟨Value.timestamp 16252, Value.num 50, Value.nan, []⟩] := by
  have h1 : rowMonth ⟨Value.timestamp 16191, Value.num 100, Value.nan, []⟩ = some 24172 := by
    have h : (⌊(16191:ℚ)⌋ : Int) = 16191 := by norm_num
    simp only [rowMonth, h]
    decide
  have h2 : rowMonth ⟨Value.timestamp 16252, Value.num 50, Value.nan, []⟩ = some 24174 := by
    have h : (⌊(16252:ℚ)⌋ : Int) = 16252 := by norm_num
    simp only [rowMonth, h]
    decide
  have hfm : List.filterMap rowMonth
      [⟨Value.timestamp 16191, Value.num 100, Value.nan, []⟩,
       ⟨Value.timestamp 16252, Value.num 50, Value.nan, []⟩] = [24172, 24174] := by
    simp [List.filterMap_cons, h1, h2]
  intro hEq
  have hlen3 : (sales_trend
      [⟨Value.timestamp 16191, Value.num 100, Value.nan, []⟩,
       ⟨Value.timestamp 16252, Value.num 50, Value.nan, []⟩]).length = 3 := by
    simp only [sales_trend, hfm]
    simp [trendFrom]
  have hlen2 : (monthlyTrend_spec
      [⟨Value.timestamp 16191, Value.num 100, Value.nan, []⟩,
       ⟨Value.timestamp 16252, Value.num 50, Value.nan, []⟩]).length = 2 := by
    simp only [monthlyTrend_spec, hfm]
    simp [firstOccur, firstOccurAux, List.insertionSort, List.orderedInsert, intLeRel]
  rw [hEq, hlen2] at hlen3
  exact absurd hlen3 (by norm_num)

/-- Witness for C2: a two-row dataset (a valid serial date and a missing
date); the surviving row carries a real timestamp and exactly the parse-able
rows remain. -/
theorem C2_witness :
    (⟨Value.timestamp 16191, Value.num 100, Value.str "A", []⟩ : Row) ∈
        normalizeDates
          [⟨Value.num 41760, Value.num 100, Value.str "A", []⟩,
           ⟨Value.nan, Value.num 50, Value.str "B", []⟩] ∧
      ((∃ t : ℚ,
          (⟨Value.timestamp 16191, Value.num 100, Value.str "A", []⟩ : Row).date =
            Value.timestamp t) ∧
        (normalizeDates
            [⟨Value.num 41760, Value.num 100, Value.str "A", []⟩,
             ⟨Value.nan, Value.num 50, Value.str "B", []⟩]).length =
          List.countP dateParses
            [⟨Value.num 41760, Value.num 100, Value.str "A", []⟩,
             ⟨Value.nan, Value.num 50, Value.str "B", []⟩]) := by
  have hmem : (⟨Value.timestamp 16191, Value.num 100, Value.str "A", []⟩ : Row) ∈
      normalizeDates
        [⟨Value.num 41760, Value.num 100, Value.str "A", []⟩,
         ⟨Value.nan, Value.num 50, Value.str "B", []⟩] := by
    norm_num [normalizeDates, dropnaDates, coerceDates, applySerialFix,
      excel_serial_to_date, to_datetime_coerce, Value.isNA, List.filter_cons]
  exact ⟨hmem, C2_normalizeDates_safe _ _ hmem⟩

/-- Witness for C10 on the same two-row dataset. -/
theorem C10_witness :
    ((normalizeDates
        [⟨Value.num 41760, Value.num 100, Value.str "A", []⟩,
         ⟨Value.nan, Value.num 50, Value.str "B", []⟩]).map stripDate).Sublist
      (([⟨Value.num 41760, Value.num 100, Value.str "A", []⟩,
         (⟨Value.nan, Value.num 50, Value.str "B", []⟩ : Row)]).map stripDate) :=
  C10_normalizeDates_frame _
